import Mathlib

/-!
Verification development for the lucida-sync repository.

The core of the repository is the `RateLimiter` class of `src/lucida_client.py`
(the "Request Governor" of the design document).  We embed it shallowly:

* wall-clock timestamps (Python floats from `time.time()`) become rationals;
* `time.sleep(d)` is modelled as advancing the clock by exactly `d`;
* the current wall-clock value is passed to each operation as an explicit
  `now` argument;
* the bounded `collections.deque(maxlen = requests_per_hour)` becomes a list
  together with an eviction-on-append operation `dequeAppend`.

`RateLimiter.wait` returns the updated limiter, the admission time (the value
of `current_time` when the Python method returns) and the four sleep amounts
of its four phases, so that theorems can speak about each wait separately.

The worker orchestration of `src/lucida_sync.py` (`process_track_async`) and
the governor-relevant event trace of `LucidaClient.download_track` are embedded
further below, with the external collaborators (Amazon search, browser
download) abstracted as boolean oracles indexed by attempt number.
-/

/-- Counterpart of appending to a Python `collections.deque` with a maximal
length `n`: the element is appended on the right and the oldest entries are
dropped from the left so that at most `n` entries remain. -/
def dequeAppend (n : ℕ) (xs : List ℚ) (t : ℚ) : List ℚ :=
  (xs ++ [t]).drop ((xs ++ [t]).length - n)

/-- The entries of the log that lie strictly inside the trailing window that
starts at `cutoff`, mirroring the Python generator
`(t for t in self.request_times if t > cutoff)`. -/
def winEntries (ts : List ℚ) (cutoff : ℚ) : List ℚ :=
  ts.filter (fun t => decide (cutoff < t))

/-- Number of log entries newer than `cutoff`, mirroring
`sum(1 for t in self.request_times if t > cutoff)`. -/
def countWin (ts : List ℚ) (cutoff : ℚ) : ℕ :=
  (winEntries ts cutoff).length

/-- Counterpart of Python `min(iterable, default := d)`. -/
def minD : List ℚ → ℚ → ℚ
  | [], d => d
  | x :: xs, _ => xs.foldl min x

/-- State of the `RateLimiter` class of `src/lucida_client.py`
(lines 21 to 123). -/
structure RateLimiter where
  requests_per_minute : ℕ
  requests_per_hour : ℕ
  min_delay : ℚ
  request_times : List ℚ
  last_request_time : ℚ
  consecutive_errors : ℕ
  max_backoff : ℚ
deriving DecidableEq

/-- `RateLimiter.__init__` (lines 27 to 43).  It takes exactly three
parameters; `max_backoff` is hard-coded to `300` in the body. -/
def RateLimiter.init (requests_per_minute requests_per_hour : ℕ)
    (min_delay : ℚ) : RateLimiter :=
  { requests_per_minute := requests_per_minute
    requests_per_hour := requests_per_hour
    min_delay := min_delay
    request_times := []
    last_request_time := 0
    consecutive_errors := 0
    max_backoff := 300 }

/-- The Python default arguments of `RateLimiter.__init__`:
`requests_per_minute = 30`, `requests_per_hour = 500`, `min_delay = 2.0`. -/
def RateLimiter.mkDefault : RateLimiter :=
  RateLimiter.init 30 500 2

/-- Phase 1 of `RateLimiter.wait` (lines 49 to 54): the sleep enforcing the
minimum delay between requests. -/
def RateLimiter.sleep_spacing (s : RateLimiter) (now : ℚ) : ℚ :=
  if now - s.last_request_time < s.min_delay then
    s.min_delay - (now - s.last_request_time)
  else 0

/-- Phase 2 of `RateLimiter.wait` (lines 56 to 68): the sliding-window
per-minute check, evaluated at clock value `t`. -/
def RateLimiter.sleep_minute (s : RateLimiter) (t : ℚ) : ℚ :=
  if s.requests_per_minute ≤ countWin s.request_times (t - 60) then
    60 - (t - minD (winEntries s.request_times (t - 60)) (t - 60)) + 1
  else 0

/-- Phase 3 of `RateLimiter.wait` (lines 70 to 81): the per-hour check,
evaluated at clock value `t`. -/
def RateLimiter.sleep_hour (s : RateLimiter) (t : ℚ) : ℚ :=
  if s.requests_per_hour ≤ countWin s.request_times (t - 3600) then
    3600 - (t - minD (winEntries s.request_times (t - 3600)) (t - 3600)) + 1
  else 0

/-- Phase 4 of `RateLimiter.wait` (lines 83 to 94): exponential backoff after
consecutive errors. -/
def RateLimiter.sleep_backoff (s : RateLimiter) : ℚ :=
  if 0 < s.consecutive_errors then
    min (s.min_delay * 2 ^ s.consecutive_errors) s.max_backoff
  else 0

/-- Result of one call of `RateLimiter.wait`: the updated limiter, the value
of `current_time` at return (which is also the recorded timestamp), and the
sleep amounts of the four phases. -/
structure WaitResult where
  state : RateLimiter
  admitTime : ℚ
  sleep1 : ℚ
  sleep2 : ℚ
  sleep3 : ℚ
  sleep4 : ℚ
deriving DecidableEq

/-- `RateLimiter.wait` (lines 45 to 98), called at wall-clock value `now`.
Each phase sleeps its amount and re-reads the clock; finally the current time
is appended to `request_times` (with deque eviction) and stored in
`last_request_time`. -/
def RateLimiter.wait (s : RateLimiter) (now : ℚ) : WaitResult :=
  let d1 := s.sleep_spacing now
  let t1 := now + d1
  let d2 := s.sleep_minute t1
  let t2 := t1 + d2
  let d3 := s.sleep_hour t2
  let t3 := t2 + d3
  let d4 := s.sleep_backoff
  let t4 := t3 + d4
  { state :=
      { s with
        request_times := dequeAppend s.requests_per_hour s.request_times t4
        last_request_time := t4 }
    admitTime := t4
    sleep1 := d1
    sleep2 := d2
    sleep3 := d3
    sleep4 := d4 }

/-- `RateLimiter.record_success` (lines 100 to 102). -/
def RateLimiter.record_success (s : RateLimiter) : RateLimiter :=
  { s with consecutive_errors := 0 }

/-- `RateLimiter.record_error` (lines 104 to 106). -/
def RateLimiter.record_error (s : RateLimiter) : RateLimiter :=
  { s with consecutive_errors := s.consecutive_errors + 1 }

/-- The dictionary returned by `RateLimiter.get_stats` (lines 108 to 123). -/
structure Stats where
  requests_last_minute : ℕ
  requests_last_hour : ℕ
  consecutive_errors : ℕ
  total_requests : ℕ
deriving DecidableEq

/-- `RateLimiter.get_stats` (lines 108 to 123), called at wall-clock value
`now`.  The method only reads `self`, so the embedding returns the statistics
together with the (unchanged) limiter state. -/
def RateLimiter.get_stats (s : RateLimiter) (now : ℚ) : Stats × RateLimiter :=
  (⟨countWin s.request_times (now - 60),
    countWin s.request_times (now - 3600),
    s.consecutive_errors,
    s.request_times.length⟩, s)

/-- Governor states reachable by some sequence of `wait` / `record_success` /
`record_error` calls on a limiter constructed with the given configuration.
Each `wait` is called at a wall-clock value no earlier than the previously
recorded request time (the wall clock never runs backwards). -/
inductive Reachable (rpm rph : ℕ) (md : ℚ) : RateLimiter → Prop where
  | init : Reachable rpm rph md (RateLimiter.init rpm rph md)
  | step_wait (s : RateLimiter) (now : ℚ) (hs : Reachable rpm rph md s)
      (hnow : s.last_request_time ≤ now) :
      Reachable rpm rph md (s.wait now).state
  | step_success (s : RateLimiter) (hs : Reachable rpm rph md s) :
      Reachable rpm rph md s.record_success
  | step_error (s : RateLimiter) (hs : Reachable rpm rph md s) :
      Reachable rpm rph md s.record_error

/-! ### Basic lemmas about the counting and eviction operations -/

lemma countWin_cons (x : ℚ) (ts : List ℚ) (c : ℚ) :
    countWin (x :: ts) c = (if c < x then 1 else 0) + countWin ts c := by
  unfold countWin winEntries
  rw [List.filter_cons]
  by_cases h : c < x
  · simp [h, Nat.add_comm]
  · simp [h]

lemma countWin_le_length (ts : List ℚ) (c : ℚ) : countWin ts c ≤ ts.length :=
  ts.length_filter_le _

lemma countWin_mono (ts : List ℚ) {a b : ℚ} (h : a ≤ b) :
    countWin ts b ≤ countWin ts a := by
  induction ts with
  | nil => exact le_refl _
  | cons x ts ih =>
    rw [countWin_cons, countWin_cons]
    have hx : (if b < x then (1 : ℕ) else 0) ≤ (if a < x then 1 else 0) := by
      by_cases hb : b < x
      · rw [if_pos hb, if_pos (lt_of_le_of_lt h hb)]
      · rw [if_neg hb]; exact Nat.zero_le _
    omega

lemma countWin_strict {ts : List ℚ} {a b x : ℚ} (hx : x ∈ ts) (hax : a < x)
    (hxb : x ≤ b) : countWin ts b < countWin ts a := by
  induction ts with
  | nil => cases hx
  | cons y ts ih =>
    rw [countWin_cons, countWin_cons]
    rcases List.mem_cons.mp hx with rfl | hmem
    · have hby : ¬ b < x := not_lt.mpr hxb
      have hmono := countWin_mono ts (le_trans hax.le hxb)
      rw [if_neg hby, if_pos hax]
      omega
    · have h1 := ih hmem
      have h2 : (if b < y then (1 : ℕ) else 0) ≤ (if a < y then 1 else 0) := by
        by_cases hby : b < y
        · rw [if_pos hby, if_pos (lt_of_le_of_lt (le_trans hax.le hxb) hby)]
        · rw [if_neg hby]; exact Nat.zero_le _
      omega

lemma length_dequeAppend (n : ℕ) (xs : List ℚ) (t : ℚ) :
    (dequeAppend n xs t).length ≤ n := by
  unfold dequeAppend
  rw [List.length_drop]
  omega

lemma countWin_dequeAppend (n : ℕ) (xs : List ℚ) (t c : ℚ) :
    countWin (dequeAppend n xs t) c ≤ countWin xs c + 1 := by
  have h1 : List.Sublist (dequeAppend n xs t) (xs ++ [t]) := List.drop_sublist _ _
  have h2 : countWin (dequeAppend n xs t) c ≤ countWin (xs ++ [t]) c :=
    (h1.filter _).length_le
  have h3 : countWin (xs ++ [t]) c ≤ countWin xs c + 1 := by
    unfold countWin winEntries
    rw [List.filter_append, List.length_append]
    have hone : (List.filter (fun u => decide (c < u)) [t]).length ≤ 1 := by
      by_cases h : c < t <;> simp [h]
    omega
  exact le_trans h2 h3

lemma foldl_min_le_init (xs : List ℚ) (a : ℚ) : xs.foldl min a ≤ a := by
  induction xs generalizing a with
  | nil => exact le_refl _
  | cons x xs ih => exact le_trans (ih (min a x)) (min_le_left _ _)

lemma foldl_min_mem (xs : List ℚ) (a : ℚ) :
    xs.foldl min a = a ∨ xs.foldl min a ∈ xs := by
  induction xs generalizing a with
  | nil => exact Or.inl rfl
  | cons x xs ih =>
    rcases ih (min a x) with h | h
    · rcases le_total a x with hax | hax
      · left
        rw [List.foldl_cons] at *
        rw [h, min_eq_left hax]
      · right
        rw [List.foldl_cons, h, min_eq_right hax]
        exact List.mem_cons_self _ _
    · right
      rw [List.foldl_cons]
      exact List.mem_cons_of_mem _ h

lemma minD_mem (l : List ℚ) (d : ℚ) (h : l ≠ []) : minD l d ∈ l := by
  match l with
  | [] => exact absurd rfl h
  | x :: xs =>
    show xs.foldl min x ∈ x :: xs
    rcases foldl_min_mem xs x with h1 | h1
    · rw [h1]; exact List.mem_cons_self _ _
    · exact List.mem_cons_of_mem _ h1

/-! ### The four sleep phases never sleep a negative amount
(for the backoff phase: as long as the configured delays are non-negative) -/

lemma sleep_spacing_nonneg (s : RateLimiter) (now : ℚ) :
    0 ≤ s.sleep_spacing now := by
  unfold RateLimiter.sleep_spacing
  by_cases h : now - s.last_request_time < s.min_delay
  · rw [if_pos h]; linarith
  · rw [if_neg h]

lemma sleep_minute_nonneg (s : RateLimiter) (t : ℚ) : 0 ≤ s.sleep_minute t := by
  unfold RateLimiter.sleep_minute
  by_cases h : s.requests_per_minute ≤ countWin s.request_times (t - 60)
  · rw [if_pos h]
    rcases eq_or_ne (winEntries s.request_times (t - 60)) [] with he | he
    · rw [he]
      show (0 : ℚ) ≤ 60 - (t - (t - 60)) + 1
      linarith
    · have hm := minD_mem _ (t - 60) he
      have hlt : t - 60 < minD (winEntries s.request_times (t - 60)) (t - 60) := by
        have := List.mem_filter.mp hm
        simpa using this.2
      linarith
  · rw [if_neg h]

lemma sleep_hour_nonneg (s : RateLimiter) (t : ℚ) : 0 ≤ s.sleep_hour t := by
  unfold RateLimiter.sleep_hour
  by_cases h : s.requests_per_hour ≤ countWin s.request_times (t - 3600)
  · rw [if_pos h]
    rcases eq_or_ne (winEntries s.request_times (t - 3600)) [] with he | he
    · rw [he]
      show (0 : ℚ) ≤ 3600 - (t - (t - 3600)) + 1
      linarith
    · have hm := minD_mem _ (t - 3600) he
      have hlt : t - 3600 < minD (winEntries s.request_times (t - 3600)) (t - 3600) := by
        have := List.mem_filter.mp hm
        simpa using this.2
      linarith
  · rw [if_neg h]

lemma sleep_backoff_nonneg (s : RateLimiter) (h1 : 0 ≤ s.min_delay)
    (h2 : 0 ≤ s.max_backoff) : 0 ≤ s.sleep_backoff := by
  unfold RateLimiter.sleep_backoff
  by_cases h : 0 < s.consecutive_errors
  · rw [if_pos h]
    exact le_min (mul_nonneg h1 (pow_nonneg (by norm_num) _)) h2
  · rw [if_neg h]

/-! ### Unfolding lemmas for `RateLimiter.wait` -/

lemma wait_admitTime (s : RateLimiter) (now : ℚ) :
    (s.wait now).admitTime =
      now + s.sleep_spacing now
        + s.sleep_minute (now + s.sleep_spacing now)
        + s.sleep_hour (now + s.sleep_spacing now
            + s.sleep_minute (now + s.sleep_spacing now))
        + s.sleep_backoff := rfl

lemma wait_sleep1 (s : RateLimiter) (now : ℚ) :
    (s.wait now).sleep1 = s.sleep_spacing now := rfl

lemma wait_sleep2 (s : RateLimiter) (now : ℚ) :
    (s.wait now).sleep2 = s.sleep_minute (now + s.sleep_spacing now) := rfl

lemma wait_sleep3 (s : RateLimiter) (now : ℚ) :
    (s.wait now).sleep3 =
      s.sleep_hour (now + s.sleep_spacing now
        + s.sleep_minute (now + s.sleep_spacing now)) := rfl

lemma wait_sleep4 (s : RateLimiter) (now : ℚ) :
    (s.wait now).sleep4 = s.sleep_backoff := rfl

lemma wait_state_log (s : RateLimiter) (now : ℚ) :
    (s.wait now).state.request_times =
      dequeAppend s.requests_per_hour s.request_times (s.wait now).admitTime := rfl

lemma wait_state_last (s : RateLimiter) (now : ℚ) :
    (s.wait now).state.last_request_time = (s.wait now).admitTime := rfl

lemma wait_admitTime_sum (s : RateLimiter) (now : ℚ) :
    (s.wait now).admitTime =
      now + (s.wait now).sleep1 + (s.wait now).sleep2 + (s.wait now).sleep3
        + (s.wait now).sleep4 := rfl

/-! ### The governor invariant -/

/-- Invariant holding of every reachable governor state: the configuration
fields never change, the log never holds more than `requests_per_hour` entries,
and at the time of the last admitted request the per-minute window held at
most `requests_per_minute` entries. -/
def GovInv (rpm rph : ℕ) (md : ℚ) (s : RateLimiter) : Prop :=
  s.requests_per_minute = rpm ∧ s.requests_per_hour = rph ∧ s.min_delay = md ∧
    s.max_backoff = 300 ∧ s.request_times.length ≤ rph ∧
    countWin s.request_times (s.last_request_time - 60) ≤ rpm

lemma govInv_init (rpm rph : ℕ) (md : ℚ) :
    GovInv rpm rph md (RateLimiter.init rpm rph md) := by
  refine ⟨rfl, rfl, rfl, rfl, ?_, ?_⟩ <;>
    simp [RateLimiter.init, countWin, winEntries]

/-- After the sleep computed by the per-minute check, the minute window holds
strictly fewer than `requests_per_minute` old entries. -/
lemma countWin_after_sleep_minute (s : RateLimiter) (t : ℚ)
    (h : countWin s.request_times (t - 60) ≤ s.requests_per_minute)
    (hp : 0 < s.requests_per_minute) :
    countWin s.request_times (t + s.sleep_minute t - 60)
      < s.requests_per_minute := by
  unfold RateLimiter.sleep_minute
  by_cases htr : s.requests_per_minute ≤ countWin s.request_times (t - 60)
  · rw [if_pos htr]
    have hne : winEntries s.request_times (t - 60) ≠ [] := by
      intro hnil
      have hz : countWin s.request_times (t - 60) = 0 := by
        unfold countWin
        rw [hnil]
        rfl
      omega
    have hm := minD_mem _ (t - 60) hne
    have hmem := List.mem_filter.mp hm
    have hlt : t - 60 < minD (winEntries s.request_times (t - 60)) (t - 60) := by
      simpa using hmem.2
    have harith :
        t + (60 - (t - minD (winEntries s.request_times (t - 60)) (t - 60)) + 1)
            - 60
          = minD (winEntries s.request_times (t - 60)) (t - 60) + 1 := by ring
    rw [harith]
    exact lt_of_lt_of_le
      (countWin_strict hmem.1 hlt (le_of_lt (lt_add_one _))) h
  · rw [if_neg htr]
    have harith : t + 0 - 60 = t - 60 := by ring
    rw [harith]
    omega

lemma govInv_wait {rpm rph : ℕ} {md : ℚ} {s : RateLimiter} {now : ℚ}
    (hrpm : 0 < rpm) (hmd : 0 ≤ md) (hI : GovInv rpm rph md s)
    (hnow : s.last_request_time ≤ now) :
    GovInv rpm rph md (s.wait now).state := by
  obtain ⟨h1, h2, h3, h4, h5, h6⟩ := hI
  subst h1
  subst h2
  subst h3
  have hb4 : (0 : ℚ) ≤ s.sleep_backoff :=
    sleep_backoff_nonneg s hmd (by rw [h4]; norm_num)
  have hs1 : 0 ≤ s.sleep_spacing now := sleep_spacing_nonneg s now
  set t1 := now + s.sleep_spacing now with ht1
  have hs2 : 0 ≤ s.sleep_minute t1 := sleep_minute_nonneg s t1
  set t2 := t1 + s.sleep_minute t1 with ht2
  have hs3 : 0 ≤ s.sleep_hour t2 := sleep_hour_nonneg s t2
  set t3 := t2 + s.sleep_hour t2 with ht3
  set t4 := t3 + s.sleep_backoff with ht4
  have hadmit : (s.wait now).admitTime = t4 := by
    rw [ht4, ht3, ht2, ht1]
    exact wait_admitTime s now
  refine ⟨rfl, rfl, rfl, h4, ?_, ?_⟩
  · rw [wait_state_log]
    exact length_dequeAppend _ _ _
  · rw [wait_state_log, wait_state_last, hadmit]
    have key : countWin s.request_times (t4 - 60) < s.requests_per_minute := by
      have ha : countWin s.request_times (t1 - 60) ≤ s.requests_per_minute := by
        have hmono := countWin_mono s.request_times
          (show s.last_request_time - 60 ≤ t1 - 60 by rw [ht1]; linarith)
        exact le_trans hmono h6
      have hb := countWin_after_sleep_minute s t1 ha hrpm
      rw [← ht2] at hb
      have hc : t2 - 60 ≤ t4 - 60 := by rw [ht4, ht3]; linarith
      exact lt_of_le_of_lt (countWin_mono _ hc) hb
    have hd := countWin_dequeAppend s.requests_per_hour s.request_times t4 (t4 - 60)
    omega

lemma govInv_reachable {rpm rph : ℕ} {md : ℚ} {s : RateLimiter}
    (h : Reachable rpm rph md s) (hrpm : 0 < rpm) (hmd : 0 ≤ md) :
    GovInv rpm rph md s := by
  induction h with
  | init => exact govInv_init rpm rph md
  | step_wait s now hs hnow ih => exact govInv_wait hrpm hmd ih hnow
  | step_success s hs ih => exact ih
  | step_error s hs ih => exact ih

/-- The configuration and capacity part of the invariant, with no side
conditions at all. -/
lemma reachable_log_le {rpm rph : ℕ} {md : ℚ} {s : RateLimiter}
    (h : Reachable rpm rph md s) :
    s.requests_per_hour = rph ∧ s.request_times.length ≤ rph := by
  induction h with
  | init => exact ⟨rfl, by simp [RateLimiter.init]⟩
  | step_wait s now hs hnow ih =>
    refine ⟨ih.1, ?_⟩
    rw [wait_state_log, ih.1]
    exact length_dequeAppend _ _ _
  | step_success s hs ih => exact ih
  | step_error s hs ih => exact ih

/-! ### Worker orchestration of src/lucida_sync.py -/

inductive TrackStatus where
  | downloaded
  | failed
deriving DecidableEq

/-- Outcome of `SpotifyToFlac.process_track_async` for one work item: terminal
status, how many search and download attempts ran, and the total local
inter-attempt pause (`asyncio.sleep(2)` after each failed attempt) of each
retry loop. -/
structure ProcessResult where
  status : TrackStatus
  searchAttempts : ℕ
  downloadAttempts : ℕ
  searchPause : ℚ
  downloadPause : ℚ
deriving DecidableEq

/-- `SpotifyToFlac.process_track_async` (src/lucida_sync.py lines 121 to 181),
with the two external collaborators abstracted as oracles: `search a` tells
whether the Amazon search succeeds on attempt `a`, and `dl a` whether the
Lucida download succeeds on attempt `a`.  The search loop is `range(3)`, the
download loop `range(2)`; each failed attempt is followed by a local
`asyncio.sleep(2)`, and when the search loop exhausts its three attempts the
worker returns without any download attempt. -/
def process_track (search dl : ℕ → Bool) : ProcessResult :=
  match (List.range 3).find? search with
  | none =>
    { status := TrackStatus.failed
      searchAttempts := 3
      downloadAttempts := 0
      searchPause := 3 * 2
      downloadPause := 0 }
  | some i =>
    match (List.range 2).find? dl with
    | none =>
      { status := TrackStatus.failed
        searchAttempts := i + 1
        downloadAttempts := 2
        searchPause := (i : ℚ) * 2
        downloadPause := 2 * 2 }
    | some j =>
      { status := TrackStatus.downloaded
        searchAttempts := i + 1
        downloadAttempts := j + 1
        searchPause := (i : ℚ) * 2
        downloadPause := (j : ℚ) * 2 }

/-- `SpotifyToFlac.sync_playlist_async` (src/lucida_sync.py lines 183 to 220):
one `process_track_async` task per track, all gathered; `search i` / `dl i`
are the oracles of the i-th track. -/
def sync_playlist (search dl : ℕ → ℕ → Bool) (n : ℕ) : List ProcessResult :=
  (List.range n).map (fun i => process_track (search i) (dl i))

/-! ### Governor-relevant events of the request path -/

/-- Events relevant to governor clearance: calls into the rate limiter and
outbound requests to the rate-limited service. -/
inductive GovEvent where
  | acquire
  | reportSuccess
  | reportError
  | outboundRequest
deriving DecidableEq

/-- Event trace of one call of `LucidaClient.download_track`
(src/lucida_client.py lines 186 to 258): the method performs one outbound
navigation to the rate-limited service (`page.goto` on the `base_url`) and its
body contains no call to `self._rate_limit`, `rate_limiter.wait`,
`record_success` or `record_error`. -/
def download_track_events : List GovEvent := [GovEvent.outboundRequest]

/-- Number of download attempts `process_track_async` makes once a link is
resolved (the `range(2)` retry loop). -/
def download_attempts (dl : ℕ → Bool) : ℕ :=
  match (List.range 2).find? dl with
  | some j => j + 1
  | none => 2

/-- Governor-relevant event trace of one `SpotifyToFlac.process_track_async`
call (src/lucida_sync.py lines 121 to 181): the Amazon search phase touches
neither the rate limiter nor the rate-limited service, each download attempt
contributes the trace of `download_track`, and nothing in the worker calls
`record_success` or `record_error`. -/
def process_track_events (search dl : ℕ → Bool) : List GovEvent :=
  match (List.range 3).find? search with
  | none => []
  | some _ =>
    ((List.range (download_attempts dl)).map (fun _ => download_track_events)).flatten

/-- The discipline asserted by the specification: every outbound request to
the rate-limited service is immediately preceded by an acquire call on the
Governor. -/
def acquiredBefore (tr : List GovEvent) : Prop :=
  ∀ i : ℕ, tr[i]? = some GovEvent.outboundRequest →
    0 < i ∧ tr[i - 1]? = some GovEvent.acquire

/-! ### Claim theorems -/

/-- C1: for every sequence of acquire() calls on one Governor, immediately
after any acquire() (= `RateLimiter.wait`) returns, the number of recorded
timestamps in the request log newer than (now − 60) is at most
`requests_per_minute`, and the number newer than (now − 3600) is at most
`requests_per_hour`; `wait` is a total function that only sleeps and always
records the request, so admission is by waiting, never by rejecting. -/
theorem c1_windowed_limits_after_acquire (rpm rph : ℕ) (md now : ℚ)
    (s : RateLimiter) (hs : Reachable rpm rph md s) (hrpm : 0 < rpm)
    (hmd : 0 ≤ md) (hnow : s.last_request_time ≤ now) :
    countWin (s.wait now).state.request_times ((s.wait now).admitTime - 60)
        ≤ rpm ∧
    countWin (s.wait now).state.request_times ((s.wait now).admitTime - 3600)
        ≤ rph := by
  have hI := govInv_wait hrpm hmd (govInv_reachable hs hrpm hmd) hnow
  obtain ⟨-, -, -, -, h5, h6⟩ := hI
  constructor
  · rw [← wait_state_last]
    exact h6
  · exact le_trans (countWin_le_length _ _) h5

/-- Witness for C1 at the default configuration, first call at clock 5. -/
theorem c1_witness :
    (RateLimiter.init 30 500 2).last_request_time ≤ 5 ∧
    countWin ((RateLimiter.init 30 500 2).wait 5).state.request_times
        (((RateLimiter.init 30 500 2).wait 5).admitTime - 60) ≤ 30 ∧
    countWin ((RateLimiter.init 30 500 2).wait 5).state.request_times
        (((RateLimiter.init 30 500 2).wait 5).admitTime - 3600) ≤ 500 := by
  have h := c1_windowed_limits_after_acquire 30 500 2 5 (RateLimiter.init 30 500 2)
    Reachable.init (by norm_num) (by norm_num)
    (by norm_num [RateLimiter.init])
  exact ⟨by norm_num [RateLimiter.init], h.1, h.2⟩

/-- C3: two consecutive acquire() calls on the same Governor are separated by
at least `min_delay`: the admission time of the next `wait` is at least the
previously recorded request time plus `min_delay` (and it becomes the new
recorded time), and when the elapsed time since the last admitted request is
less than `min_delay`, phase 1 suspends for exactly the remaining delta. -/
theorem c3_consecutive_spacing (s : RateLimiter) (now : ℚ)
    (hmd : 0 ≤ s.min_delay) (hmb : 0 ≤ s.max_backoff) :
    s.last_request_time + s.min_delay ≤ (s.wait now).admitTime ∧
    (s.wait now).state.last_request_time = (s.wait now).admitTime ∧
    (now - s.last_request_time < s.min_delay →
      (s.wait now).sleep1 = s.min_delay - (now - s.last_request_time)) := by
  refine ⟨?_, wait_state_last s now, ?_⟩
  · have h1 : s.last_request_time + s.min_delay ≤ now + s.sleep_spacing now := by
      unfold RateLimiter.sleep_spacing
      by_cases h : now - s.last_request_time < s.min_delay
      · rw [if_pos h]
        linarith
      · rw [if_neg h]
        have := not_lt.mp h
        linarith
    have h2 := sleep_minute_nonneg s (now + s.sleep_spacing now)
    have h3 := sleep_hour_nonneg s
      (now + s.sleep_spacing now + s.sleep_minute (now + s.sleep_spacing now))
    have h4 := sleep_backoff_nonneg s hmd hmb
    rw [wait_admitTime]
    linarith
  · intro h
    rw [wait_sleep1]
    unfold RateLimiter.sleep_spacing
    rw [if_pos h]

/-- Witness for C3 at the default configuration, called at clock 1 (which is
closer to the initial recorded time 0 than the minimum delay 2). -/
theorem c3_witness :
    0 ≤ (RateLimiter.init 30 500 2).min_delay ∧
    0 ≤ (RateLimiter.init 30 500 2).max_backoff ∧
    ((RateLimiter.init 30 500 2).last_request_time
          + (RateLimiter.init 30 500 2).min_delay
        ≤ ((RateLimiter.init 30 500 2).wait 1).admitTime ∧
      ((RateLimiter.init 30 500 2).wait 1).state.last_request_time
        = ((RateLimiter.init 30 500 2).wait 1).admitTime ∧
      (1 - (RateLimiter.init 30 500 2).last_request_time
          < (RateLimiter.init 30 500 2).min_delay →
        ((RateLimiter.init 30 500 2).wait 1).sleep1
          = (RateLimiter.init 30 500 2).min_delay
            - (1 - (RateLimiter.init 30 500 2).last_request_time))) :=
  ⟨by norm_num [RateLimiter.init], by norm_num [RateLimiter.init],
    c3_consecutive_spacing (RateLimiter.init 30 500 2) 1
      (by norm_num [RateLimiter.init]) (by norm_num [RateLimiter.init])⟩

/-- C4: if `consecutive_errors = k > 0` when acquire() is called, phase 4
sleeps exactly `min(min_delay * 2 ^ k, max_backoff)` (hence at least that
much), and this wait stacks on top of the spacing and windowed waits: the
admission time is the call time plus the sum of all four sleeps. -/
theorem c4_backoff_stacking (s : RateLimiter) (now : ℚ)
    (hk : 0 < s.consecutive_errors) :
    (s.wait now).sleep4
        = min (s.min_delay * 2 ^ s.consecutive_errors) s.max_backoff ∧
    (s.wait now).admitTime =
      now + (s.wait now).sleep1 + (s.wait now).sleep2 + (s.wait now).sleep3
        + (s.wait now).sleep4 := by
  refine ⟨?_, wait_admitTime_sum s now⟩
  rw [wait_sleep4]
  unfold RateLimiter.sleep_backoff
  rw [if_pos hk]

/-- Witness for C4: default configuration after one reported error, called at
clock 100. -/
theorem c4_witness :
    0 < ((RateLimiter.init 30 500 2).record_error).consecutive_errors ∧
    ((((RateLimiter.init 30 500 2).record_error).wait 100).sleep4
        = min (((RateLimiter.init 30 500 2).record_error).min_delay
            * 2 ^ ((RateLimiter.init 30 500 2).record_error).consecutive_errors)
            ((RateLimiter.init 30 500 2).record_error).max_backoff ∧
      (((RateLimiter.init 30 500 2).record_error).wait 100).admitTime =
        100 + (((RateLimiter.init 30 500 2).record_error).wait 100).sleep1
          + (((RateLimiter.init 30 500 2).record_error).wait 100).sleep2
          + (((RateLimiter.init 30 500 2).record_error).wait 100).sleep3
          + (((RateLimiter.init 30 500 2).record_error).wait 100).sleep4) :=
  ⟨by norm_num [RateLimiter.record_error, RateLimiter.init],
    c4_backoff_stacking ((RateLimiter.init 30 500 2).record_error) 100
      (by norm_num [RateLimiter.record_error, RateLimiter.init])⟩

lemma record_error_iterate_fields (s : RateLimiter) (n : ℕ) :
    ((RateLimiter.record_error)^[n] s).min_delay = s.min_delay ∧
    ((RateLimiter.record_error)^[n] s).max_backoff = s.max_backoff := by
  induction n with
  | zero => exact ⟨rfl, rfl⟩
  | succ n ih =>
    rw [Function.iterate_succ_apply']
    exact ⟨ih.1, ih.2⟩

/-- C5: `record_success` sets `consecutive_errors` to 0 idempotently and with
no error conditions, whatever its prior value; after any number of
`record_error` calls followed by one `record_success`, a single further
`record_error` leaves `consecutive_errors = 1`, and the backoff of the next
`wait` is computed from k = 1. -/
theorem c5_success_resets (s : RateLimiter) (n : ℕ) (now : ℚ) :
    s.record_success.consecutive_errors = 0 ∧
    s.record_success.record_success = s.record_success ∧
    ((RateLimiter.record_error)^[n] s).record_success.record_error.consecutive_errors
        = 1 ∧
    ((((RateLimiter.record_error)^[n] s).record_success.record_error).wait now).sleep4
        = min (s.min_delay * 2 ^ (1 : ℕ)) s.max_backoff := by
  refine ⟨rfl, rfl, rfl, ?_⟩
  rw [wait_sleep4]
  unfold RateLimiter.sleep_backoff
  rw [if_pos (show
    0 < ((RateLimiter.record_error)^[n] s).record_success.record_error.consecutive_errors
    from Nat.zero_lt_one)]
  have hf := record_error_iterate_fields s n
  have hmd :
      ((RateLimiter.record_error)^[n] s).record_success.record_error.min_delay
        = s.min_delay := hf.1
  have hmb :
      ((RateLimiter.record_error)^[n] s).record_success.record_error.max_backoff
        = s.max_backoff := hf.2
  rw [hmd, hmb,
    show ((RateLimiter.record_error)^[n] s).record_success.record_error.consecutive_errors
      = 1 from rfl]

/-- C7: `get_stats` is side-effect free — any number of interleaved `get_stats`
calls leaves the Governor state unchanged, so a subsequent `wait` behaves
exactly as without them — and it returns exactly the four counts: entries in
the last 60 seconds, entries in the last 3600 seconds, `consecutive_errors`,
and the total number of retained log entries (all values in ℕ, hence
non-negative). -/
theorem c7_stats_side_effect_free (s : RateLimiter) (queries : List ℚ)
    (now : ℚ) :
    queries.foldl (fun st t => (st.get_stats t).2) s = s ∧
    (queries.foldl (fun st t => (st.get_stats t).2) s).wait now = s.wait now ∧
    (s.get_stats now).1.requests_last_minute
        = countWin s.request_times (now - 60) ∧
    (s.get_stats now).1.requests_last_hour
        = countWin s.request_times (now - 3600) ∧
    (s.get_stats now).1.consecutive_errors = s.consecutive_errors ∧
    (s.get_stats now).1.total_requests = s.request_times.length := by
  have hfold : queries.foldl (fun st t => (st.get_stats t).2) s = s := by
    induction queries with
    | nil => rfl
    | cons q qs ih =>
      rw [List.foldl_cons]
      exact ih
  exact ⟨hfold, by rw [hfold], rfl, rfl, rfl, rfl⟩

/-- C8 counterexample: `max_backoff` is not one of the constructor inputs —
no choice of the three actual constructor arguments produces a Governor with
`max_backoff = 150`, so `maxBackoffSeconds` cannot be supplied by the
caller. -/
theorem c8_counterexample :
    ¬ ∃ (rpm rph : ℕ) (md : ℚ),
        (RateLimiter.init rpm rph md).max_backoff = 150 := by
  rintro ⟨rpm, rph, md, h⟩
  simp only [RateLimiter.init] at h
  norm_num at h

/-- C8 (amended): the Governor is constructed from exactly three
caller-suppliable configuration inputs with defaults `requests_per_minute = 30`,
`requests_per_hour = 500`, `min_delay = 2.0`; `max_backoff` is fixed
internally at 300 for every construction. -/
theorem c8_three_config_inputs :
    RateLimiter.mkDefault = RateLimiter.init 30 500 2 ∧
    (∀ (rpm rph : ℕ) (md : ℚ),
      (RateLimiter.init rpm rph md).requests_per_minute = rpm ∧
      (RateLimiter.init rpm rph md).requests_per_hour = rph ∧
      (RateLimiter.init rpm rph md).min_delay = md ∧
      (RateLimiter.init rpm rph md).max_backoff = 300) :=
  ⟨rfl, fun _ _ _ => ⟨rfl, rfl, rfl, rfl⟩⟩

/-- C9: on every reachable Governor state the `get_stats` snapshot satisfies
`requests_last_minute ≤ requests_last_hour ≤ total_requests ≤
requests_per_hour`, and all four fields are non-negative (they live in ℕ). -/
theorem c9_stats_ordering (rpm rph : ℕ) (md now : ℚ) (s : RateLimiter)
    (hs : Reachable rpm rph md s) :
    (s.get_stats now).1.requests_last_minute
        ≤ (s.get_stats now).1.requests_last_hour ∧
    (s.get_stats now).1.requests_last_hour
        ≤ (s.get_stats now).1.total_requests ∧
    (s.get_stats now).1.total_requests ≤ rph ∧
    0 ≤ (s.get_stats now).1.requests_last_minute ∧
    0 ≤ (s.get_stats now).1.requests_last_hour ∧
    0 ≤ (s.get_stats now).1.consecutive_errors ∧
    0 ≤ (s.get_stats now).1.total_requests := by
  refine ⟨?_, ?_, (reachable_log_le hs).2, Nat.zero_le _, Nat.zero_le _,
    Nat.zero_le _, Nat.zero_le _⟩
  · exact countWin_mono s.request_times (by linarith)
  · exact countWin_le_length _ _

/-- Witness for C9 at the freshly constructed default Governor, queried at
clock 0. -/
theorem c9_witness :
    ((RateLimiter.init 30 500 2).get_stats 0).1.requests_last_minute
        ≤ ((RateLimiter.init 30 500 2).get_stats 0).1.requests_last_hour ∧
    ((RateLimiter.init 30 500 2).get_stats 0).1.requests_last_hour
        ≤ ((RateLimiter.init 30 500 2).get_stats 0).1.total_requests ∧
    ((RateLimiter.init 30 500 2).get_stats 0).1.total_requests ≤ 500 ∧
    0 ≤ ((RateLimiter.init 30 500 2).get_stats 0).1.requests_last_minute ∧
    0 ≤ ((RateLimiter.init 30 500 2).get_stats 0).1.requests_last_hour ∧
    0 ≤ ((RateLimiter.init 30 500 2).get_stats 0).1.consecutive_errors ∧
    0 ≤ ((RateLimiter.init 30 500 2).get_stats 0).1.total_requests :=
  c9_stats_ordering 30 500 2 0 (RateLimiter.init 30 500 2) Reachable.init

/-- C10: on a freshly constructed Governor (empty log, `consecutive_errors = 0`,
last-request timestamp 0) with positive window limits, the first acquire()
performs no waiting at all — no spacing wait, no windowed wait, no backoff
wait — provided the clock value is at least `min_delay`; it records the clock
value as the single log entry and as the new last-request timestamp. -/
theorem c10_fresh_first_acquire (rpm rph : ℕ) (md now : ℚ)
    (hrpm : 0 < rpm) (hrph : 0 < rph) (hnow : md ≤ now) :
    ((RateLimiter.init rpm rph md).wait now).sleep1 = 0 ∧
    ((RateLimiter.init rpm rph md).wait now).sleep2 = 0 ∧
    ((RateLimiter.init rpm rph md).wait now).sleep3 = 0 ∧
    ((RateLimiter.init rpm rph md).wait now).sleep4 = 0 ∧
    ((RateLimiter.init rpm rph md).wait now).admitTime = now ∧
    ((RateLimiter.init rpm rph md).wait now).state.request_times = [now] ∧
    ((RateLimiter.init rpm rph md).wait now).state.last_request_time = now := by
  have e1 : (RateLimiter.init rpm rph md).sleep_spacing now = 0 := by
    unfold RateLimiter.sleep_spacing
    rw [if_neg]
    simp only [RateLimiter.init]
    linarith
  have e2 : ∀ t : ℚ, (RateLimiter.init rpm rph md).sleep_minute t = 0 := by
    intro t
    unfold RateLimiter.sleep_minute
    rw [if_neg]
    simp only [RateLimiter.init, countWin, winEntries, List.filter_nil,
      List.length_nil]
    omega
  have e3 : ∀ t : ℚ, (RateLimiter.init rpm rph md).sleep_hour t = 0 := by
    intro t
    unfold RateLimiter.sleep_hour
    rw [if_neg]
    simp only [RateLimiter.init, countWin, winEntries, List.filter_nil,
      List.length_nil]
    omega
  have e4 : (RateLimiter.init rpm rph md).sleep_backoff = 0 := by
    unfold RateLimiter.sleep_backoff
    rw [if_neg]
    simp [RateLimiter.init]
  have hadmit : ((RateLimiter.init rpm rph md).wait now).admitTime = now := by
    rw [wait_admitTime, e1, e2, e3, e4]
    ring
  refine ⟨?_, ?_, ?_, ?_, hadmit, ?_, ?_⟩
  · rw [wait_sleep1]; exact e1
  · rw [wait_sleep2]; exact e2 _
  · rw [wait_sleep3]; exact e3 _
  · rw [wait_sleep4]; exact e4
  · rw [wait_state_log, hadmit]
    show dequeAppend rph [] now = [now]
    unfold dequeAppend
    simp [Nat.sub_eq_zero_of_le hrph]
  · rw [wait_state_last]
    exact hadmit

/-- Witness for C10: default configuration, first call at clock 5. -/
theorem c10_witness :
    (0 : ℕ) < 30 ∧ (0 : ℕ) < 500 ∧ (2 : ℚ) ≤ 5 ∧
    (((RateLimiter.init 30 500 2).wait 5).sleep1 = 0 ∧
      ((RateLimiter.init 30 500 2).wait 5).sleep2 = 0 ∧
      ((RateLimiter.init 30 500 2).wait 5).sleep3 = 0 ∧
      ((RateLimiter.init 30 500 2).wait 5).sleep4 = 0 ∧
      ((RateLimiter.init 30 500 2).wait 5).admitTime = 5 ∧
      ((RateLimiter.init 30 500 2).wait 5).state.request_times = [5] ∧
      ((RateLimiter.init 30 500 2).wait 5).state.last_request_time = 5) :=
  ⟨by norm_num, by norm_num, by norm_num,
    c10_fresh_first_acquire 30 500 2 5 (by norm_num) (by norm_num) (by norm_num)⟩

lemma process_track_of_search_none {search dl : ℕ → Bool}
    (h : (List.range 3).find? search = none) :
    process_track search dl =
      { status := TrackStatus.failed
        searchAttempts := 3
        downloadAttempts := 0
        searchPause := 3 * 2
        downloadPause := 0 } := by
  unfold process_track
  rw [h]

lemma process_track_of_dl_none {search dl : ℕ → Bool} {i : ℕ}
    (hs : (List.range 3).find? search = some i)
    (hd : (List.range 2).find? dl = none) :
    process_track search dl =
      { status := TrackStatus.failed
        searchAttempts := i + 1
        downloadAttempts := 2
        searchPause := (i : ℚ) * 2
        downloadPause := 2 * 2 } := by
  unfold process_track
  rw [hs, hd]

lemma process_track_of_dl_some {search dl : ℕ → Bool} {i j : ℕ}
    (hs : (List.range 3).find? search = some i)
    (hd : (List.range 2).find? dl = some j) :
    process_track search dl =
      { status := TrackStatus.downloaded
        searchAttempts := i + 1
        downloadAttempts := j + 1
        searchPause := (i : ℚ) * 2
        downloadPause := (j : ℚ) * 2 } := by
  unfold process_track
  rw [hs, hd]

/-- C6: every work item runs at most 3 resolution attempts and at most 2
download attempts; the inter-attempt pauses are the fixed local 2-second
sleeps of the worker (2 seconds per failed attempt, defined with no reference
to the shared rate limiter); a resolution failure after all 3 attempts marks
the item failed with zero download attempts; and the playlist driver
processes every one of its `n` items to a result — an exhausted item never
halts the remaining ones. -/
theorem c6_worker_retry_bounds (search dl : ℕ → ℕ → Bool) (n : ℕ) :
    (∀ i : ℕ,
      (process_track (search i) (dl i)).searchAttempts ≤ 3 ∧
      (process_track (search i) (dl i)).downloadAttempts ≤ 2 ∧
      ((process_track (search i) (dl i)).searchPause
          = 2 * ((process_track (search i) (dl i)).searchAttempts : ℚ) ∨
        (process_track (search i) (dl i)).searchPause
          = 2 * (((process_track (search i) (dl i)).searchAttempts - 1 : ℕ) : ℚ)) ∧
      ((process_track (search i) (dl i)).downloadPause
          = 2 * ((process_track (search i) (dl i)).downloadAttempts : ℚ) ∨
        (process_track (search i) (dl i)).downloadPause
          = 2 * (((process_track (search i) (dl i)).downloadAttempts - 1 : ℕ) : ℚ)) ∧
      ((∀ a : ℕ, a < 3 → search i a = false) →
        (process_track (search i) (dl i)).status = TrackStatus.failed ∧
        (process_track (search i) (dl i)).downloadAttempts = 0)) ∧
    (sync_playlist search dl n).length = n ∧
    (∀ i : ℕ, i < n →
      (sync_playlist search dl n)[i]? = some (process_track (search i) (dl i))) := by
  refine ⟨?_, ?_, ?_⟩
  · intro i
    rcases hs : (List.range 3).find? (search i) with _ | a
    · rw [process_track_of_search_none hs]
      exact ⟨by norm_num, by norm_num, Or.inl (by norm_num),
        Or.inl (by norm_num), fun _ => ⟨rfl, rfl⟩⟩
    · have ha : a < 3 := List.mem_range.mp (List.mem_of_find?_eq_some hs)
      have hsa : search i a = true := List.find?_some hs
      have hno : ¬ ∀ b : ℕ, b < 3 → search i b = false := by
        intro hall
        rw [hall a ha] at hsa
        exact Bool.false_ne_true hsa
      rcases hd : (List.range 2).find? (dl i) with _ | b
      · rw [process_track_of_dl_none hs hd]
        refine ⟨by show a + 1 ≤ 3; omega, by norm_num, Or.inr ?_,
          Or.inl (by norm_num), fun hall => absurd hall hno⟩
        show (a : ℚ) * 2 = 2 * ((a + 1 - 1 : ℕ) : ℚ)
        push_cast
        ring
      · have hb : b < 2 := List.mem_range.mp (List.mem_of_find?_eq_some hd)
        rw [process_track_of_dl_some hs hd]
        refine ⟨by show a + 1 ≤ 3; omega, by show b + 1 ≤ 2; omega,
          Or.inr ?_, Or.inr ?_, fun hall => absurd hall hno⟩
        · show (a : ℚ) * 2 = 2 * ((a + 1 - 1 : ℕ) : ℚ)
          push_cast
          ring
        · show (b : ℚ) * 2 = 2 * ((b + 1 - 1 : ℕ) : ℚ)
          push_cast
          ring
  · simp [sync_playlist]
  · intro i hi
    simp [sync_playlist, List.getElem?_map, List.getElem?_range hi]

/-- Witness for C6: a playlist of two tracks; for track 0 the search succeeds
on the second attempt and the download on the first, while for the single
track of the other run everything fails. -/
theorem c6_witness :
    (process_track (fun a => decide (a = 1)) (fun _ => true)).searchAttempts ≤ 3 ∧
    (process_track (fun _ => false) (fun _ => false)).downloadAttempts = 0 ∧
    (sync_playlist (fun _ a => decide (a = 1)) (fun _ _ => true) 2).length = 2 := by
  have h := c6_worker_retry_bounds (fun _ a => decide (a = 1)) (fun _ _ => true) 2
  have h2 := c6_worker_retry_bounds (fun _ _ => false) (fun _ _ => false) 1
  exact ⟨(h.1 0).1, ((h2.1 0).2.2.2.2 (fun a _ => rfl)).2, h.2.1⟩

/-- C2 (code evidence): with a track whose search succeeds on the first
attempt and whose download succeeds on the first attempt, the worker issues
exactly one outbound request to the rate-limited service, the trace contains
no `acquire` (`rate_limiter.wait`) call and no `record_success` /
`record_error` call, and the every-outbound-preceded-by-acquire discipline is
violated: the rate limiter built by the client is never consulted on the
request path. -/
theorem c2_no_governor_on_request_path :
    process_track_events (fun _ => true) (fun _ => true)
        = [GovEvent.outboundRequest] ∧
    GovEvent.acquire ∉ process_track_events (fun _ => true) (fun _ => true) ∧
    GovEvent.reportSuccess ∉ process_track_events (fun _ => true) (fun _ => true) ∧
    GovEvent.reportError ∉ process_track_events (fun _ => true) (fun _ => true) ∧
    ¬ acquiredBefore (process_track_events (fun _ => true) (fun _ => true)) := by
  have htr : process_track_events (fun _ => true) (fun _ => true)
      = [GovEvent.outboundRequest] := rfl
  refine ⟨htr, ?_, ?_, ?_, ?_⟩
  · rw [htr]; decide
  · rw [htr]; decide
  · rw [htr]; decide
  · rw [htr]
    intro h
    exact Nat.lt_irrefl 0 (h 0 rfl).1
